import Mathlib

/-!
Verification development for the lexicon Structural DOM Harvesting Engine.

The definitions below are a shallow embedding of the injected WhatsApp
monitor (the batched variant of
`src/lexicon-frontend/src-tauri/injections/whatsapp_monitor.js`, which is
textually identical in all relevant parts to
`src/unnamed/part_000`), of its debug selector-query bridge, and of the
structural matcher consumed by `OrganManagerWidget.svelte`.

DOM queries (querySelector and friends) are modelled as record fields
holding the query results, in document order; all control flow, string
manipulation, truthiness checks and regular-expression tests from the
JavaScript are reproduced as Lean functions on those fields.
-/

set_option maxRecDepth 16384

namespace Lexicon

/-! ### JavaScript string semantics helpers -/

/-- JS truthiness for a nullable string: null and the empty string are falsy.
Returns the string when truthy, and none otherwise. -/
def strTruthy : Option String → Option String
  | none => none
  | some s => if s.isEmpty then none else some s

/-- The ASCII whitespace characters of the JS regex class backslash-s. -/
def isWsChar (c : Char) : Bool :=
  c = ' ' || c = '\t' || c = '\n' || c = '\r' || c = Char.ofNat 11 || c = Char.ofNat 12

/-- Lowercase one ASCII letter. -/
def asciiLower (c : Char) : Char :=
  if 65 ≤ c.toNat ∧ c.toNat ≤ 90 then Char.ofNat (c.toNat + 32) else c

/-- JS toLowerCase, modelled on the ASCII range. -/
def jsToLower (s : String) : String :=
  String.mk (s.toList.map asciiLower)

/-- JS String.trim: strip leading and trailing whitespace. -/
def jsTrim (s : String) : String :=
  String.mk (((s.toList.dropWhile isWsChar).reverse.dropWhile isWsChar).reverse)

/-- Every character is a decimal digit. -/
def allDigits (s : String) : Bool :=
  s.toList.all Char.isDigit

/-- Split a character list at every character satisfying the separator
predicate, producing the (possibly empty) pieces between separators. -/
def splitCharList (p : Char → Bool) : List Char → List String
  | [] => [""]
  | c :: rest =>
      if p c then "" :: splitCharList p rest
      else
        match splitCharList p rest with
        | [] => [String.mk [c]]
        | t :: ts => (String.mk [c] ++ t) :: ts

/-- JS String.split on a single-character class. -/
def jsSplit (p : Char → Bool) (s : String) : List String :=
  splitCharList p s.toList

/-- Value of a decimal digit string, as read by parseInt on digits. -/
def digitsToNat (l : List Char) : Nat :=
  l.foldl (fun acc c => acc * 10 + (c.toNat - 48)) 0

/-- Code-point lexicographic comparison of character lists. -/
def charListLt : List Char → List Char → Bool
  | [], [] => false
  | [], _ :: _ => true
  | _ :: _, [] => false
  | a :: as, b :: bs =>
      if a.toNat < b.toNat then true
      else if b.toNat < a.toNat then false
      else charListLt as bs

/-- Code-point lexicographic comparison of strings. -/
def strLtB (a b : String) : Bool :=
  charListLt a.toList b.toList

/-- Test of the JS regex: caret, one or two digits, colon, two digits
(unanchored at the right end), as used to skip timestamp titles. -/
def startsTimeRe (s : String) : Bool :=
  (match s.toList with
   | a :: ':' :: c :: d :: _ => a.isDigit && c.isDigit && d.isDigit
   | _ => false)
  ||
  (match s.toList with
   | a :: b :: ':' :: c :: d :: _ => a.isDigit && b.isDigit && c.isDigit && d.isDigit
   | _ => false)

/-- Test of the JS regex: caret yesterday dollar, case-insensitive. -/
def isYesterdayRe (s : String) : Bool :=
  jsToLower s = "yesterday"

/-- Test of the JS regex: caret, one to three digits, dollar. -/
def digitsRe13 (s : String) : Bool :=
  decide (1 ≤ s.length) && decide (s.length ≤ 3) && allDigits s

/-- Matches the optional tail of the full time regex: either nothing, or
optional whitespace followed by AM or PM (case-insensitive), then the end. -/
def amPmTail (l : List Char) : Bool :=
  match l with
  | [] => true
  | _ =>
    match l.dropWhile isWsChar with
    | [a, b] =>
        ((a = 'A' || a = 'a') && (b = 'M' || b = 'm'))
          || ((a = 'P' || a = 'p') && (b = 'M' || b = 'm'))
    | _ => false

/-- Test of the JS regex: caret, one or two digits, colon, two digits,
optional whitespace plus AM or PM, dollar (case-insensitive). -/
def fullTimeRe (s : String) : Bool :=
  (match s.toList with
   | a :: ':' :: c :: d :: rest => a.isDigit && c.isDigit && d.isDigit && amPmTail rest
   | _ => false)
  ||
  (match s.toList with
   | a :: b :: ':' :: c :: d :: rest =>
       a.isDigit && b.isDigit && c.isDigit && d.isDigit && amPmTail rest
   | _ => false)

/-- Test of the JS date regex: caret, 1-2 digits, slash, 1-2 digits, slash,
2-4 digits, dollar. Since a digit never matches a slash, this is equivalent
to splitting on slashes and checking the three digit runs. -/
def dateRe (s : String) : Bool :=
  match jsSplit (· = '/') s with
  | [a, b, c] =>
      allDigits a && allDigits b && allDigits c
        && decide (1 ≤ a.length) && decide (a.length ≤ 2)
        && decide (1 ≤ b.length) && decide (b.length ≤ 2)
        && decide (2 ≤ c.length) && decide (c.length ≤ 4)
  | _ => false

/-- Characters matched by the JS regex dot (anything but a line terminator). -/
def dotChar (c : Char) : Bool :=
  c ≠ '\n' && c ≠ '\r'

/-- Lazy group search for the sender regex: given the input after the
whitespace run, find the shortest non-empty group of dot characters that is
followed by a colon and then only whitespace up to the end. -/
def groupAt (l : List Char) : Option (List Char) :=
  (List.range l.length).findSome? fun n =>
    let g := l.take (n + 1)
    match l.drop (n + 1) with
    | ':' :: tail =>
        if g.all dotChar && tail.all isWsChar then some g else none
    | _ => none

/-- Matches the part of the sender regex that follows the closing bracket:
greedy whitespace star, then the lazy group, then colon, whitespace star,
end of string. The greedy star yields back characters one at a time. -/
def tailMatch (l : List Char) : Option (List Char) :=
  let w := (l.takeWhile isWsChar).length
  (List.range (w + 1)).findSome? fun k => groupAt (l.drop (w - k))

/-- First (leftmost) match of the JS sender regex against the
data-pre-plain-text attribute value: a closing bracket, whitespace star, a
lazy group, a colon, whitespace star, end; returns the captured group. -/
def senderGroup : List Char → Option (List Char)
  | [] => none
  | c :: rest =>
      if c = ']' then
        match tailMatch rest with
        | some g => some g
        | none => senderGroup rest
      else senderGroup rest

/-- Sender extraction from the data-pre-plain-text attribute: match the
sender regex against the attribute value and trim the captured group;
none when the attribute is absent or the regex does not match. -/
def prePlainSender (attr : Option String) : Option String :=
  match attr with
  | none => none
  | some pp =>
      match senderGroup pp.toList with
      | some g => some (jsTrim (String.mk g))
      | none => none

/-! ### Data model: records, queue and timers -/

/-- One harvested message record, with the fields built by the scans.
Sidebar records carry an unread count; open-chat records do not. -/
structure HarvestRecord where
  contact : String
  chat : String
  text : String
  timestamp : String
  message_id : String
  unread_count : Option Nat
  deriving DecidableEq, Repr

/-- The batching state of the monitor: the outgoing message queue, the
flush-timer handle (non-null or null), and the number of actually scheduled
timer callbacks that have not fired yet. -/
structure QState where
  messageQueue : List HarvestRecord
  flushTimer : Bool
  pendingTimers : Nat
  deriving DecidableEq, Repr

/-- The state at script start: empty queue, no timer. -/
def QState.start : QState := ⟨[], false, 0⟩

/-- queueMessage: push the record onto the queue and schedule a flush
callback if the timer handle is not already set. -/
def queueMessage (r : HarvestRecord) (s : QState) : QState :=
  if s.flushTimer then { s with messageQueue := s.messageQueue ++ [r] }
  else { s with messageQueue := s.messageQueue ++ [r], flushTimer := true,
                pendingTimers := s.pendingTimers + 1 }

/-- The body of flushQueue: clear the timer handle, return early when the
queue is empty, otherwise hand the whole queue over as one batch and leave
the queue empty. -/
def flushQueue (s : QState) : QState × Option (List HarvestRecord) :=
  if s.messageQueue.isEmpty then ({ s with flushTimer := false }, none)
  else ({ s with messageQueue := [], flushTimer := false }, some s.messageQueue)

/-- A scheduled flush callback fires: the pending timer is consumed and the
flushQueue body runs. -/
def fireFlush (s : QState) : QState × Option (List HarvestRecord) :=
  flushQueue { s with pendingTimers := s.pendingTimers - 1 }

/-- The queue/timer step relation of the harvester: from the start state,
any scan may enqueue a record at any time, and a flush callback may fire
whenever one is actually scheduled. -/
inductive QReach : QState → Prop
  | start : QReach QState.start
  | enq (r : HarvestRecord) {s : QState} : QReach s → QReach (queueMessage r s)
  | fire {s : QState} : QReach s → 0 < s.pendingTimers → QReach (fireFlush s).1

/-- Enqueue a list of records in order. -/
def enqueueAll (recs : List HarvestRecord) (q : QState) : QState :=
  recs.foldl (fun q r => queueMessage r q) q

/-! ### Harvester session state -/

/-- The module-scoped mutable scan state of one monitor session: the two
per-target seen-sets and the batching state. -/
structure HState where
  seenMessages : List String
  seenSidebar : List String
  q : QState
  deriving DecidableEq, Repr

/-- The session state at script start. -/
def HState.start : HState := ⟨[], [], QState.start⟩

/-! ### Open-chat scan -/

/-- The result of querying span.selectable-text inside a message element:
the trimmed-source text of its inner span, when one exists, and its own
text content. -/
structure SelSpan where
  innerText : Option String
  ownText : String
  deriving DecidableEq, Repr

/-- One div.message-in element, given by the results of the DOM queries the
scan performs on it. -/
structure MsgEl where
  attrDataId : Option String
  closestDataId : Option String
  selectable : Option SelSpan
  dirSpanText : Option String
  prePlainAttr : Option String
  deriving DecidableEq, Repr

/-- extractText: prefer the inner span of span.selectable-text, then the
selectable span itself, then any span with a dir attribute; trim the text. -/
def extractText (el : MsgEl) : Option String :=
  match el.selectable with
  | some sel =>
      match sel.innerText with
      | some t => some (jsTrim t)
      | none => some (jsTrim sel.ownText)
  | none =>
      match el.dirSpanText with
      | some t => some (jsTrim t)
      | none => none

/-- The first header span with a title attribute found document-wide
(outside the open-chat header): its title attribute and its text content. -/
structure FbSpan where
  titleAttr : String
  textContent : String
  deriving DecidableEq, Repr

/-- The header-related queries of the open-chat scan: the title attributes
of the spans inside the open-chat header, in document order, and the
document-wide fallback span, if any. -/
structure ChatDoc where
  mainHeaderTitles : List String
  fallbackSpan : Option FbSpan
  deriving DecidableEq, Repr

/-- getCurrentChatName: first title of length 1-119 among the open-chat
header spans, else the fallback span title - or, when its title is empty,
its trimmed text content - subject to the same length bounds. -/
def getCurrentChatName (d : ChatDoc) : Option String :=
  match d.mainHeaderTitles.find? (fun t => !t.isEmpty && decide (t.length < 120)) with
  | some t => some t
  | none =>
      match d.fallbackSpan with
      | some fb =>
          let ft := if fb.titleAttr.isEmpty then jsTrim fb.textContent else fb.titleAttr
          if !ft.isEmpty && decide (ft.length < 120) then some ft else none
      | none => none

/-- The derived id of an open-chat message with no native data-id: chat
name, scan index and the first 20 characters of the extracted text. -/
def openChatDerivedId (chat : String) (i : Nat) (rt : String) : String :=
  "p_" ++ chat ++ "_" ++ toString i ++ "_" ++ rt.take 20

/-- The identity rule of the open-chat scan: the data-id attribute of the
element, else of its closest ancestor carrying one, else the derived id;
none when no id can be built because the text is falsy. -/
def computeMsgId (chat : String) (i : Nat) (el : MsgEl) : Option String :=
  match strTruthy el.attrDataId with
  | some d => some d
  | none =>
      match strTruthy el.closestDataId with
      | some d => some d
      | none =>
          match strTruthy (extractText el) with
          | some rt => some (openChatDerivedId chat i rt)
          | none => none

/-- The per-message body of the open-chat scan loop: compute the id, skip
when it is already seen or the text is falsy, otherwise record the id as
seen and queue a record. -/
def stepOpenChat (ts chat : String) (i : Nat) (el : MsgEl) (s : HState) :
    HState × Option HarvestRecord :=
  match computeMsgId chat i el with
  | none => (s, none)
  | some mid =>
      if mid ∈ s.seenMessages then (s, none)
      else
        match strTruthy (extractText el) with
        | none => (s, none)
        | some text =>
            ({ s with seenMessages := mid :: s.seenMessages,
                      q := queueMessage
                        ⟨(strTruthy (prePlainSender el.prePlainAttr)).getD chat, chat, text,
                          ts, mid, none⟩ s.q },
             some ⟨(strTruthy (prePlainSender el.prePlainAttr)).getD chat, chat, text,
                    ts, mid, none⟩)

/-- The open-chat scan loop over the div.message-in list, starting at a
given index, returning the final state and the records emitted in order. -/
def scanOpenChatGo (ts chat : String) : Nat → List MsgEl → HState → HState × List HarvestRecord
  | _, [], s => (s, [])
  | i, el :: rest, s =>
      ((scanOpenChatGo ts chat (i + 1) rest (stepOpenChat ts chat i el s).1).1,
       (stepOpenChat ts chat i el s).2.toList
         ++ (scanOpenChatGo ts chat (i + 1) rest (stepOpenChat ts chat i el s).1).2)

/-- scanOpenChat: resolve the chat name and bail out when none is found;
otherwise run the message loop from index 0. -/
def scanOpenChat (ts : String) (doc : ChatDoc) (msgs : List MsgEl) (s : HState) :
    HState × List HarvestRecord :=
  match getCurrentChatName doc with
  | none => (s, [])
  | some chat => scanOpenChatGo ts chat 0 msgs s

/-! ### Sidebar scan -/

/-- One span inside a sidebar item: its text content and rendered width. -/
structure SbSpan where
  textContent : String
  offsetWidth : Nat
  deriving DecidableEq, Repr

/-- One sidebar item, given by its title-attribute values and its spans,
each in document order. -/
structure SbItem where
  titles : List String
  spans : List SbSpan
  deriving DecidableEq, Repr

/-- The three selector strategies of the sidebar scan, as query results:
the obfuscated class, the structural/ARIA fallback, and - only when the
pane-side container exists - the tabindex fallback under it. -/
structure SidebarDoc where
  akItems : List SbItem
  fallbackItems : List SbItem
  paneItems : Option (List SbItem)
  deriving DecidableEq, Repr

/-- The selector fallback chain of scanSidebar: take the obfuscated-class
matches; if empty take the structural fallback matches; if still empty and
the pane container exists, take the tabindex matches under it. -/
def resolveSidebarItems (d : SidebarDoc) : List SbItem :=
  if d.akItems.isEmpty then
    if d.fallbackItems.isEmpty then
      match d.paneItems with
      | some l => l
      | none => d.fallbackItems
    else d.fallbackItems
  else d.akItems

/-- Generic first-non-empty fallback resolution over an ordered list of
strategy results. -/
def firstNonEmpty {α : Type} (ls : List (List α)) : List α :=
  (ls.find? fun l => !l.isEmpty).getD []

/-- Contact resolution: the first title attribute of length at least 2 that
is neither a timestamp nor the word yesterday. -/
def findContact (titles : List String) : Option String :=
  titles.find? fun tv =>
    !tv.isEmpty && decide (1 < tv.length) && !startsTimeRe tv && !isYesterdayRe tv

/-- Unread-badge search: the first narrow span whose trimmed text is one to
three digits with a positive value below 1000. -/
def findUnread (spans : List SbSpan) : Nat :=
  match spans.findSome? (fun sp =>
    let st := jsTrim sp.textContent
    if digitsRe13 st && decide (sp.offsetWidth < 40) then
      let n := digitsToNat st.toList
      if 0 < n ∧ n < 1000 then some n else none
    else none) with
  | some n => n
  | none => 0

/-- The keep condition of the preview loop: non-empty, longer than 2,
different from the contact, not a time, a bare count, the word yesterday or
a date, and shorter than 500 characters. -/
def previewOk (contact pt : String) : Bool :=
  !pt.isEmpty && decide (2 < pt.length) && (pt != contact) && !fullTimeRe pt
    && !digitsRe13 pt && !isYesterdayRe pt && !dateRe pt && decide (pt.length < 500)

/-- Preview extraction: the last span (walking backwards) whose trimmed
text passes the keep condition. -/
def findPreview (contact : String) (spans : List SbSpan) : Option String :=
  spans.reverse.findSome? fun sp =>
    let pt := jsTrim sp.textContent
    if previewOk contact pt then some pt else none

/-- The derived id of a sidebar item: the contact name plus the first 50
characters of the preview text. -/
def sidebarKey (contact pv : String) : String :=
  "sb_" ++ contact ++ "_" ++ pv.take 50

/-- The per-item body of the sidebar scan loop: resolve contact, unread
count and preview; skip when any is missing or the key is already seen;
otherwise record the key as seen and queue a record. -/
def stepSidebar (ts : String) (item : SbItem) (s : HState) :
    HState × Option HarvestRecord :=
  match findContact item.titles with
  | none => (s, none)
  | some contact =>
      match findPreview contact item.spans with
      | none => (s, none)
      | some pv =>
          if sidebarKey contact pv ∈ s.seenSidebar then (s, none)
          else
            ({ s with seenSidebar := sidebarKey contact pv :: s.seenSidebar,
                      q := queueMessage
                        ⟨contact, contact, pv, ts, sidebarKey contact pv,
                          some (findUnread item.spans)⟩ s.q },
             some ⟨contact, contact, pv, ts, sidebarKey contact pv,
                    some (findUnread item.spans)⟩)

/-- The sidebar scan loop over the resolved item list. -/
def scanSidebarGo (ts : String) : List SbItem → HState → HState × List HarvestRecord
  | [], s => (s, [])
  | item :: rest, s =>
      ((scanSidebarGo ts rest (stepSidebar ts item s).1).1,
       (stepSidebar ts item s).2.toList ++ (scanSidebarGo ts rest (stepSidebar ts item s).1).2)

/-- scanSidebar: resolve the items through the selector fallback chain and
run the item loop. -/
def scanSidebar (ts : String) (d : SidebarDoc) (s : HState) :
    HState × List HarvestRecord :=
  scanSidebarGo ts (resolveSidebarItems d) s

/-! ### Readiness polling -/

/-- The retry bound of the readiness poll loop. -/
def MAX_RETRIES : Nat := 180

/-- One status payload handed to the relay: a status string together with a
timestamp. -/
structure StatusEv where
  status : String
  timestamp : String
  deriving DecidableEq, Repr

/-- The polling state: whether the observer phase has started, the retry
counter, and whether a poll callback is currently scheduled. -/
structure PollState where
  observerStarted : Bool
  retryCount : Nat
  armed : Bool
  deriving DecidableEq, Repr

/-- The polling state right after boot schedules the first poll. -/
def PollState.boot : PollState := ⟨false, 0, true⟩

/-- One poll tick input: whether a readiness marker is present, whether a
QR marker is visible, and the current time. -/
structure PollInput where
  loaded : Bool
  qrVisible : Bool
  now : String
  deriving DecidableEq, Repr

/-- One firing of the waitForWhatsApp callback. When no callback is
scheduled nothing happens. Otherwise: bail out if the observer phase
already started; bump the retry counter; past the bound emit one timeout
status and stop; on a readiness marker start the observer phase and emit
connected; else optionally emit a QR status every tenth retry and schedule
the next poll. -/
def pollStep (s : PollState) (inp : PollInput) : PollState × List StatusEv :=
  if !s.armed then (s, [])
  else if s.observerStarted then ({ s with armed := false }, [])
  else if MAX_RETRIES < s.retryCount + 1 then
    (⟨s.observerStarted, s.retryCount + 1, false⟩, [⟨"timeout", inp.now⟩])
  else if inp.loaded then
    (⟨true, s.retryCount + 1, false⟩, [⟨"connected", inp.now⟩])
  else if inp.qrVisible && decide ((s.retryCount + 1) % 10 = 0) then
    (⟨s.observerStarted, s.retryCount + 1, true⟩, [⟨"waiting_for_qr", inp.now⟩])
  else (⟨s.observerStarted, s.retryCount + 1, true⟩, [])

/-- Run the poll callback over a sequence of tick inputs, collecting all
emitted status events in order. -/
def pollRun : PollState → List PollInput → PollState × List StatusEv
  | s, [] => (s, [])
  | s, inp :: rest =>
      ((pollRun (pollStep s inp).1 rest).1,
       (pollStep s inp).2 ++ (pollRun (pollStep s inp).1 rest).2)

/-- Number of events carrying a given status string. -/
def countStatus (st : String) (evs : List StatusEv) : Nat :=
  (evs.filter fun e => e.status == st).length

/-! ### Debug selector-query bridge -/

/-- One element returned by the debug query, given by the properties and
attributes the descriptor builder reads. The className is none when it is
not a string; the outer HTML is none when reading it threw. -/
structure QElem where
  tagName : String
  idAttr : String
  className : Option String
  titleAttr : Option String
  roleAttr : Option String
  testidAttr : Option String
  textContent : Option String
  outerHtml : Option String
  deriving DecidableEq, Repr

/-- Whitespace tokenisation as done by trim plus split on a whitespace run
plus dropping empty pieces. -/
def splitWsTokens (s : String) : List String :=
  (jsSplit isWsChar (jsTrim s)).filter fun t => !t.isEmpty

/-- The text field of a descriptor: only when the raw text content is
truthy, trim and cap it, and keep it only when still truthy. -/
def qTextField (tc : Option String) : Option String :=
  match strTruthy tc with
  | some t => strTruthy ((jsTrim t).take 100)
  | none => none

/-- The lightweight element descriptor built by the debug query path. -/
structure QDesc where
  tag : String
  idField : Option String
  classes : Option (List String)
  title : Option String
  role : Option String
  dataTestid : Option String
  text : Option String
  outerHtml : Option String
  deriving DecidableEq, Repr

/-- Build the descriptor of one queried element, with the caps of the
source: 6 class tokens, 80 title characters, 100 text characters, 200
outer-HTML characters. -/
def describeQEl (el : QElem) : QDesc :=
  { tag := jsToLower el.tagName
    idField := strTruthy (some el.idAttr)
    classes :=
      match el.className with
      | some cn =>
          if cn.isEmpty then none
          else
            let cls := splitWsTokens cn
            if cls.isEmpty then none else some (cls.take 6)
      | none => none
    title := (strTruthy el.titleAttr).map (fun t => t.take 80)
    role := strTruthy el.roleAttr
    dataTestid := strTruthy el.testidAttr
    text := qTextField el.textContent
    outerHtml := el.outerHtml.map (fun h => h.take 200) }

/-- The shape of the query result posted back through the relay. -/
structure QueryOutcome where
  count : Int
  results : List QDesc
  error : Option String
  deriving DecidableEq, Repr

/-- pollSelectorQuery, after draining the pending slot: when a truthy
selector string is pending, run it through querySelectorAll - modelled as a
fallible function - and either post up to 20 descriptors with the true
total count, or, when the selector is invalid, post the structured error
descriptor with count -1. -/
def pollSelectorQuery (pending : Option String)
    (qsa : String → Except String (List QElem)) : Option QueryOutcome :=
  match strTruthy pending with
  | none => none
  | some sel =>
      match qsa sel with
      | Except.ok els =>
          some { count := (els.length : Int), results := (els.take 20).map describeQEl,
                 error := none }
      | Except.error msg =>
          some { count := -1, results := [], error := some msg }

/-! ### Structural matcher and scorer

Modelled from the spec: the fingerprint, match and score mechanism lives in
the backend Brain service, which is not part of the shared sources; only
its caller `previewMatch` in `OrganManagerWidget.svelte` is. The
definitions below follow the words of spec sections 4.1 and 4.2: candidate
universe by tag and shared class token, a hard candidate cap, a weighted
score of class-set Jaccard similarity, normalized child-tag edit distance
and a notable-attribute bonus, a minimum score threshold, descending stable
sort and a capped preview list with a true total count. -/

/-- Modelled from the spec: one element of the live document, with its tag,
class tokens, immediate child tag names and notable attribute names. -/
structure SElem where
  tag : String
  classes : List String
  childTags : List String
  notable : List String
  deriving DecidableEq, Repr

/-- Modelled from the spec: the structural signature of a sample element. -/
structure Fingerprint where
  tag : String
  classes : List String
  childSchema : List String
  notable : List String
  deriving DecidableEq, Repr

/-- Remove duplicate strings, keeping one occurrence of each. -/
def dedupKeep : List String → List String
  | [] => []
  | x :: xs => if x ∈ xs then dedupKeep xs else x :: dedupKeep xs

/-- Insert into a string list sorted ascending. -/
def insertStr (x : String) : List String → List String
  | [] => [x]
  | y :: ys => if strLtB y x then y :: insertStr x ys else x :: y :: ys

/-- Sort a string list ascending. -/
def sortStr : List String → List String
  | [] => []
  | x :: xs => insertStr x (sortStr xs)

/-- Size of the intersection of two duplicate-free string lists. -/
def interCount (a b : List String) : Nat :=
  (a.filter fun x => decide (x ∈ b)).length

/-- Modelled from the spec: Jaccard similarity of two class-token sets. -/
def jaccardQ (a b : List String) : ℚ :=
  if dedupKeep a = [] ∧ dedupKeep b = [] then 1
  else
    (interCount (dedupKeep a) (dedupKeep b) : ℚ) /
      (((dedupKeep a).length + (dedupKeep b).length
          - interCount (dedupKeep a) (dedupKeep b) : Nat) : ℚ)

/-- Levenshtein recursion with explicit fuel; the fuel is only consumed
when both lists are non-empty, so a fuel of the total length suffices. -/
def levAux : Nat → List String → List String → Nat
  | _, [], ys => ys.length
  | _, x :: xs, [] => (x :: xs).length
  | 0, _ :: _, _ :: _ => 0
  | fuel + 1, x :: xs, y :: ys =>
      min (min (levAux fuel xs (y :: ys) + 1) (levAux fuel (x :: xs) ys + 1))
          (levAux fuel xs ys + (if x = y then 0 else 1))

/-- Levenshtein distance between two tag sequences. -/
def levDist (a b : List String) : Nat :=
  levAux (a.length + b.length) a b

/-- Modelled from the spec: similarity of immediate child tag sequences as
one minus the normalized edit distance. -/
def childSimQ (a b : List String) : ℚ :=
  if a = [] ∧ b = [] then 1
  else 1 - (levDist a b : ℚ) / ((max a.length b.length : Nat) : ℚ)

/-- Modelled from the spec: full bonus when the same non-empty set of
notable attribute names is present on both sample and candidate. -/
def notableBonusQ (fpN elN : List String) : ℚ :=
  if fpN ≠ [] ∧ sortStr (dedupKeep fpN) = sortStr (dedupKeep elN) then 1 else 0

/-- Modelled from the spec: the weighted candidate score. -/
def scoreQ (fp : Fingerprint) (e : SElem) : ℚ :=
  (1 / 2) * jaccardQ fp.classes e.classes
    + (3 / 10) * childSimQ fp.childSchema e.childTags
    + (1 / 5) * notableBonusQ fp.notable e.notable

/-- Modelled from the spec: the minimum score threshold. -/
def scoreMin : ℚ := 1 / 2

/-- Modelled from the spec: the hard candidate cap. -/
def candidateCap : Nat := 2000

/-- Modelled from the spec: the preview list cap. -/
def previewCap : Nat := 20

/-- Modelled from the spec: the broad-net candidate universe - every
element whose tag equals the fingerprint tag, restricted, when the
fingerprint has classes, to elements sharing at least one class token. -/
def candidateUniverse (fp : Fingerprint) (doc : List SElem) : List SElem :=
  let tagged := doc.filter fun e => e.tag == fp.tag
  if fp.classes.isEmpty then tagged
  else tagged.filter fun e => e.classes.any fun c => decide (c ∈ fp.classes)

/-- Modelled from the spec: match failure when the fingerprint is too
generic. -/
inductive MatchErr
  | tooManyCandidates
  deriving DecidableEq, Repr

/-- Modelled from the spec: the match result with the true total count and
the capped ordered preview of matches. -/
structure MatchResult where
  count : Nat
  orderedMatches : List SElem
  fingerprint : Fingerprint
  deriving DecidableEq, Repr

/-- Stable insertion by strictly greater score, keeping document order
among candidates of equal score. -/
def insertByScore (fp : Fingerprint) (x : SElem) : List SElem → List SElem
  | [] => [x]
  | y :: ys => if scoreQ fp y < scoreQ fp x then x :: y :: ys else y :: insertByScore fp x ys

/-- Stable sort descending by score. -/
def sortByScore (fp : Fingerprint) : List SElem → List SElem
  | [] => []
  | x :: xs => insertByScore fp x (sortByScore fp xs)

/-- Modelled from the spec: the match operation - build the candidate
universe, abort past the hard cap, keep candidates at or above the
threshold, sort descending by score with document order on ties, report the
true total and the capped preview. -/
def matchFingerprint (fp : Fingerprint) (doc : List SElem) : Except MatchErr MatchResult :=
  if candidateCap < (candidateUniverse fp doc).length then
    Except.error MatchErr.tooManyCandidates
  else
    Except.ok
      { count := (sortByScore fp ((candidateUniverse fp doc).filter
          fun e => decide (scoreMin ≤ scoreQ fp e))).length,
        orderedMatches := (sortByScore fp ((candidateUniverse fp doc).filter
          fun e => decide (scoreMin ≤ scoreQ fp e))).take previewCap,
        fingerprint := fp }

/-- Modelled from the spec: fingerprint extraction from one sample element
with sorted duplicate-free classes and a length-bounded child schema. -/
def extractFingerprint (e : SElem) : Fingerprint :=
  { tag := e.tag, classes := sortStr (dedupKeep e.classes),
    childSchema := e.childTags.take 20, notable := e.notable }

/-! ### Concrete instances used by scenario theorems and witnesses -/

/-- A sample record for queue witnesses. -/
def recEx : HarvestRecord := ⟨"a", "a", "x", "t", "id1", none⟩

/-- A probe sidebar item for the selector-fallback example. -/
def sbProbe : SbItem := ⟨["x"], []⟩

/-- Strategy B of the resolve example: 3 matches. -/
def bList3 : List SbItem := List.replicate 3 sbProbe

/-- Strategy C of the resolve example: 5 matches. -/
def cList5 : List SbItem := List.replicate 5 sbProbe

/-- The sample element of match Scenario 3. -/
def sampleElem : SElem := ⟨"div", ["row", "item"], ["span"], []⟩

/-- The non-matching element of match Scenario 3. -/
def otherElem : SElem := ⟨"div", ["row", "other"], ["span"], []⟩

/-- The Scenario 3 document: 5 row-item elements and 2 row-other elements. -/
def scenarioDoc : List SElem :=
  [sampleElem, sampleElem, otherElem, sampleElem, sampleElem, otherElem, sampleElem]

/-- The fingerprint of the Scenario 3 sample fragment. -/
def scenarioFp : Fingerprint := extractFingerprint sampleElem

/-- A poll input with neither a readiness marker nor a QR marker. -/
def idleInp : PollInput := ⟨false, false, "t"⟩

/-- A poll input with a visible QR marker but no readiness marker. -/
def qrInp : PollInput := ⟨false, true, "t"⟩

/-- A 54-character preview string. -/
def pvA : String := String.mk (List.replicate 50 'a') ++ "bbbb"

/-- A second 54-character preview agreeing with the first on its 50-character
head but differing beyond it. -/
def pvB : String := String.mk (List.replicate 50 'a') ++ "cccc"

/-- A sidebar item whose preview is the first long string. -/
def itemA : SbItem := ⟨["Alice"], [⟨pvA, 100⟩]⟩

/-- A sidebar item whose preview is the second long string. -/
def itemB : SbItem := ⟨["Alice"], [⟨pvB, 100⟩]⟩

/-- A sidebar document holding both long-preview items. -/
def sbDocAB : SidebarDoc := ⟨[itemA, itemB], [], none⟩

/-- The chat document of the gating counterexample: no span with a title
attribute of length 1-119 anywhere, but a fallback header span with an
empty title attribute and the text content of a name. -/
def cexDoc : ChatDoc := ⟨[], some ⟨"", " Bob "⟩⟩

/-- A message element carrying a native data-id and real text. -/
def msgNative : MsgEl := ⟨some "m1", none, some ⟨some "hi", "hi"⟩, none, none⟩

/-- A message element with no data-id anywhere but real text. -/
def msgNoId : MsgEl := ⟨none, none, some ⟨some "hello world", ""⟩, none, none⟩

/-! ### Queue and batching lemmas -/

theorem queueMessage_messageQueue (r : HarvestRecord) (q : QState) :
    (queueMessage r q).messageQueue = q.messageQueue ++ [r] := by
  unfold queueMessage
  split <;> rfl

theorem queueMessage_of_armed (r : HarvestRecord) (q : QState) (h : q.flushTimer = true) :
    queueMessage r q = { q with messageQueue := q.messageQueue ++ [r] } := by
  unfold queueMessage
  simp [h]

theorem enqueueAll_of_armed (recs : List HarvestRecord) (q : QState) (h : q.flushTimer = true) :
    enqueueAll recs q = { q with messageQueue := q.messageQueue ++ recs } := by
  induction recs generalizing q with
  | nil => simp [enqueueAll]
  | cons r rest ih =>
      have h1 : queueMessage r q = { q with messageQueue := q.messageQueue ++ [r] } :=
        queueMessage_of_armed r q h
      calc enqueueAll (r :: rest) q = enqueueAll rest (queueMessage r q) := by
            simp [enqueueAll, List.foldl_cons]
        _ = enqueueAll rest { q with messageQueue := q.messageQueue ++ [r] } := by rw [h1]
        _ = { q with messageQueue := q.messageQueue ++ (r :: rest) } := by
            rw [ih { q with messageQueue := q.messageQueue ++ [r] } h]
            simp

theorem qreach_invariant (s : QState) (h : QReach s) :
    s.pendingTimers = (if s.flushTimer then 1 else 0) ∧
    (s.flushTimer = true → s.messageQueue ≠ []) := by
  induction h with
  | start => exact ⟨rfl, fun h => by cases h⟩
  | enq r h ih =>
      rename_i s0
      by_cases ht : s0.flushTimer
      · rw [queueMessage_of_armed r s0 ht]
        refine ⟨by simpa [ht] using ih.1, fun _ => by simp⟩
      · have hp : s0.pendingTimers = 0 := by simpa [ht] using ih.1
        have : queueMessage r s0 =
            { s0 with messageQueue := s0.messageQueue ++ [r], flushTimer := true,
                      pendingTimers := s0.pendingTimers + 1 } := by
          unfold queueMessage
          simp [ht]
        rw [this]
        exact ⟨by simp [hp], fun _ => by simp⟩
  | fire h hp ih =>
      rename_i s0
      have ht : s0.flushTimer = true := by
        by_contra hc
        simp only [Bool.not_eq_true] at hc
        rw [ih.1, hc] at hp
        simp at hp
      have hq : s0.messageQueue ≠ [] := ih.2 ht
      have hone : s0.pendingTimers = 1 := by simpa [ht] using ih.1
      have : (fireFlush s0).1 = ⟨[], false, 0⟩ := by
        unfold fireFlush flushQueue
        simp [List.isEmpty_iff, hq, hone]
      rw [this]
      exact ⟨rfl, fun h => by cases h⟩

/-! ### C2 and C3 -/

/-- C2: batch coalescing - starting from the empty queue with no timer,
enqueueing a non-empty sequence of records arms exactly one flush timer
(the first record arms it, later ones do not schedule another), leaves all
of them in the queue in order, and the single flush fire atomically swaps
the queue for an empty one and hands the whole sequence over as exactly one
batch of that size. -/
theorem batch_coalescing (recs : List HarvestRecord) (hne : recs ≠ []) :
    (enqueueAll recs QState.start).messageQueue = recs ∧
    (enqueueAll recs QState.start).flushTimer = true ∧
    (enqueueAll recs QState.start).pendingTimers = 1 ∧
    fireFlush (enqueueAll recs QState.start) = (QState.start, some recs) := by
  match recs with
  | [] => exact absurd rfl hne
  | r :: rest =>
    have h1 : queueMessage r QState.start = ⟨[r], true, 1⟩ := rfl
    have h2 : enqueueAll (r :: rest) QState.start = enqueueAll rest ⟨[r], true, 1⟩ := by
      simp [enqueueAll, List.foldl_cons, h1]
    have h3 : enqueueAll rest (⟨[r], true, 1⟩ : QState) = ⟨r :: rest, true, 1⟩ := by
      rw [enqueueAll_of_armed rest ⟨[r], true, 1⟩ rfl]
      simp
    rw [h2, h3]
    refine ⟨rfl, rfl, rfl, ?_⟩
    unfold fireFlush flushQueue
    simp [QState.start]

/-- Witness for C2 at a singleton batch. -/
theorem batch_coalescing_witness :
    fireFlush (enqueueAll [recEx] QState.start) = (QState.start, some [recEx]) :=
  (batch_coalescing [recEx] (by simp)).2.2.2

/-- C3: in every reachable state of the queue/timer step relation, a
pending flush timer implies a non-empty queue; hence a firing flush always
finds a non-empty queue and hands over exactly that non-empty batch. -/
theorem flush_timer_nonempty (s : QState) (h : QReach s) :
    (s.flushTimer = true → s.messageQueue ≠ []) ∧
    (0 < s.pendingTimers → s.messageQueue ≠ []) ∧
    (0 < s.pendingTimers →
      (fireFlush s).2 = some s.messageQueue ∧ s.messageQueue ≠ []) := by
  obtain ⟨hp, hf⟩ := qreach_invariant s h
  have key : 0 < s.pendingTimers → s.messageQueue ≠ [] := by
    intro hpos
    by_cases ht : s.flushTimer
    · exact hf ht
    · rw [hp] at hpos
      simp [ht] at hpos
  refine ⟨hf, key, fun hpos => ⟨?_, key hpos⟩⟩
  unfold fireFlush flushQueue
  simp [List.isEmpty_iff, key hpos]

/-- Witness for C3 at a reachable one-record state. -/
theorem flush_timer_nonempty_witness :
    (queueMessage recEx QState.start).messageQueue ≠ [] :=
  (flush_timer_nonempty (queueMessage recEx QState.start)
    (QReach.enq recEx QReach.start)).1 rfl

/-! ### C5 -/

/-- C5: the selector fallback chain of the sidebar scan returns the result
of the first strategy yielding a non-empty node set - later strategies are
not consulted - and the empty set when every strategy yields nothing; on
the example with strategies of 0, 3 and 5 matches it returns the 3 matches
of the second strategy. -/
theorem selector_fallback_first_nonempty :
    (∀ d : SidebarDoc,
       resolveSidebarItems d = firstNonEmpty [d.akItems, d.fallbackItems, d.paneItems.getD []]) ∧
    (∀ (d : SidebarDoc), d.akItems ≠ [] → resolveSidebarItems d = d.akItems) ∧
    (∀ (d : SidebarDoc), d.akItems = [] → d.fallbackItems ≠ [] →
       resolveSidebarItems d = d.fallbackItems) ∧
    (∀ (d : SidebarDoc), d.akItems = [] → d.fallbackItems = [] →
       resolveSidebarItems d = d.paneItems.getD []) ∧
    (resolveSidebarItems ⟨[], bList3, some cList5⟩ = bList3
       ∧ bList3.length = 3 ∧ cList5.length = 5) := by
  have main : ∀ d : SidebarDoc,
      resolveSidebarItems d = firstNonEmpty [d.akItems, d.fallbackItems, d.paneItems.getD []] := by
    intro d
    cases ha : d.akItems.isEmpty with
    | false => simp [resolveSidebarItems, firstNonEmpty, List.find?, ha]
    | true =>
      cases hb : d.fallbackItems.isEmpty with
      | false => simp [resolveSidebarItems, firstNonEmpty, List.find?, ha, hb]
      | true =>
        have hb' : d.fallbackItems = [] := List.isEmpty_iff.mp hb
        cases hc : d.paneItems with
        | none => simp [resolveSidebarItems, firstNonEmpty, List.find?, ha, hb, hc, hb']
        | some l =>
            cases hl : l.isEmpty with
            | false => simp [resolveSidebarItems, firstNonEmpty, List.find?, ha, hb, hc, hl]
            | true =>
                have hl' : l = [] := List.isEmpty_iff.mp hl
                simp [resolveSidebarItems, firstNonEmpty, List.find?, ha, hb, hc, hl, hl']
  refine ⟨main, ?_, ?_, ?_, ?_⟩
  · intro d ha
    have ha' : d.akItems.isEmpty = false := by
      cases h : d.akItems.isEmpty
      · rfl
      · exact absurd (List.isEmpty_iff.mp h) ha
    rw [main d]
    simp [firstNonEmpty, List.find?, ha']
  · intro d ha hb
    have ha' : d.akItems.isEmpty = true := by simp [List.isEmpty_iff, ha]
    have hb' : d.fallbackItems.isEmpty = false := by
      cases h : d.fallbackItems.isEmpty
      · rfl
      · exact absurd (List.isEmpty_iff.mp h) hb
    rw [main d]
    simp [firstNonEmpty, List.find?, ha', hb']
  · intro d ha hb
    have ha' : d.akItems.isEmpty = true := by simp [List.isEmpty_iff, ha]
    have hb' : d.fallbackItems.isEmpty = true := by simp [List.isEmpty_iff, hb]
    rw [main d]
    cases hc : d.paneItems with
    | none => simp [firstNonEmpty, List.find?, ha', hb', hc, List.isEmpty_iff.mp hb']
    | some l =>
        cases hl : l.isEmpty with
        | false => simp [firstNonEmpty, List.find?, ha', hb', hc, hl]
        | true => simp [firstNonEmpty, List.find?, ha', hb', hc, hl, List.isEmpty_iff.mp hl]
  · exact ⟨by decide, by decide, by decide⟩

/-- Witness for C5: the first strategy, when non-empty, wins no matter what
the later strategies hold. -/
theorem selector_fallback_first_nonempty_witness :
    resolveSidebarItems ⟨bList3, cList5, some cList5⟩ = bList3 :=
  selector_fallback_first_nonempty.2.1 ⟨bList3, cList5, some cList5⟩ (by decide)

/-! ### C6 -/

/-- C6: the debug query path is total and two-shaped - for a truthy pending
selector it returns either the ok shape whose count is the true total and
whose descriptor list is capped at 20, or, when the selector is invalid,
the structured error shape with count -1; it never escapes its handler. -/
theorem debug_query_shape :
    ∀ (pending : Option String) (qsa : String → Except String (List QElem)),
      (strTruthy pending = none ∧ pollSelectorQuery pending qsa = none) ∨
      (∃ sel els, strTruthy pending = some sel ∧ qsa sel = Except.ok els ∧
        pollSelectorQuery pending qsa =
          some { count := (els.length : Int), results := (els.take 20).map describeQEl,
                 error := none } ∧
        ((els.take 20).map describeQEl).length ≤ 20 ∧ (0 : Int) ≤ (els.length : Int)) ∨
      (∃ sel msg, strTruthy pending = some sel ∧ qsa sel = Except.error msg ∧
        pollSelectorQuery pending qsa =
          some { count := -1, results := [], error := some msg }) := by
  intro pending qsa
  cases h : strTruthy pending with
  | none => exact Or.inl ⟨rfl, by simp [pollSelectorQuery, h]⟩
  | some sel =>
      cases hq : qsa sel with
      | ok els =>
          refine Or.inr (Or.inl ⟨sel, els, rfl, hq, by simp [pollSelectorQuery, h, hq], ?_, ?_⟩)
          · simp [List.length_take]
          · exact Int.ofNat_nonneg els.length
      | error msg =>
          exact Or.inr (Or.inr ⟨sel, msg, rfl, hq, by simp [pollSelectorQuery, h, hq]⟩)

/-! ### C8 -/

/-- C8: structural matching selectivity, modelled from the spec. For the
Scenario 3 document with 5 row-item elements and 2 row-other elements, the
broad-net candidate universe admits all 7 elements (each shares a class
token with the fingerprint), yet the match returns count 5 and only the
row-item elements; no row-other element appears among the matches. -/
theorem structural_match_selectivity :
    (candidateUniverse scenarioFp scenarioDoc).length = 7 ∧
    (candidateUniverse scenarioFp scenarioDoc).contains otherElem = true ∧
    matchFingerprint scenarioFp scenarioDoc =
      Except.ok { count := 5, orderedMatches := List.replicate 5 sampleElem,
                  fingerprint := scenarioFp } ∧
    ((List.replicate 5 sampleElem).all fun e => !e.classes.contains "other") = true := by
  have hfp : scenarioFp = ⟨"div", ["item", "row"], ["span"], []⟩ := by decide
  have huniv : candidateUniverse scenarioFp scenarioDoc = scenarioDoc := by decide
  have hjacc1 : jaccardQ ["item", "row"] ["row", "item"] = 1 := by
    have h1 : dedupKeep ["item", "row"] = ["item", "row"] := by decide
    have h2 : dedupKeep ["row", "item"] = ["row", "item"] := by decide
    have h3 : interCount ["item", "row"] ["row", "item"] = 2 := by decide
    simp only [jaccardQ, h1, h2, h3]
    norm_num
  have hjacc2 : jaccardQ ["item", "row"] ["row", "other"] = 1 / 3 := by
    have h1 : dedupKeep ["item", "row"] = ["item", "row"] := by decide
    have h2 : dedupKeep ["row", "other"] = ["row", "other"] := by decide
    have h3 : interCount ["item", "row"] ["row", "other"] = 1 := by decide
    simp only [jaccardQ, h1, h2, h3]
    norm_num
    intro h
    simp at h
  have hchild : childSimQ ["span"] ["span"] = 1 := by
    have h1 : levDist ["span"] ["span"] = 0 := by decide
    simp only [childSimQ, h1]
    norm_num
  have hbonus : notableBonusQ ([] : List String) ([] : List String) = 0 := by
    simp [notableBonusQ]
  have hs1 : scoreQ scenarioFp sampleElem = 4 / 5 := by
    rw [hfp]
    simp only [scoreQ, sampleElem]
    rw [hjacc1, hchild, hbonus]
    norm_num
  have hs2 : scoreQ scenarioFp otherElem = 7 / 15 := by
    rw [hfp]
    simp only [scoreQ, otherElem]
    rw [hjacc2, hchild, hbonus]
    norm_num
  have hdec1 : decide (scoreMin ≤ scoreQ scenarioFp sampleElem) = true := by
    rw [hs1]
    simp only [decide_eq_true_eq, scoreMin]
    norm_num
  have hdec2 : decide (scoreMin ≤ scoreQ scenarioFp otherElem) = false := by
    rw [hs2]
    simp only [decide_eq_false_iff_not, scoreMin]
    norm_num
  have hkept : scenarioDoc.filter (fun e => decide (scoreMin ≤ scoreQ scenarioFp e))
      = List.replicate 5 sampleElem := by
    simp only [scenarioDoc, List.filter_cons, List.filter_nil, hdec1, hdec2]
    simp [List.replicate]
  have hsorted : sortByScore scenarioFp (List.replicate 5 sampleElem)
      = List.replicate 5 sampleElem := by
    simp [List.replicate, sortByScore, insertByScore, hs1]
  refine ⟨by decide, by decide, ?_, by decide⟩
  simp only [matchFingerprint, huniv, hkept, hsorted]
  norm_num [scenarioDoc, candidateCap, previewCap, List.take_replicate]

/-! ### Polling lemmas -/

theorem pollStep_unarmed (s : PollState) (inp : PollInput) (h : s.armed = false) :
    pollStep s inp = (s, []) := by
  simp [pollStep, h]

theorem pollRun_unarmed (inputs : List PollInput) (s : PollState) (h : s.armed = false) :
    pollRun s inputs = (s, []) := by
  induction inputs with
  | nil => rfl
  | cons inp rest ih => simp [pollRun, pollStep_unarmed s inp h, ih]

theorem countStatus_append (st : String) (a b : List StatusEv) :
    countStatus st (a ++ b) = countStatus st a + countStatus st b := by
  simp [countStatus, List.filter_append]

theorem pollRun_append (a b : List PollInput) (s : PollState) :
    pollRun s (a ++ b) =
      ((pollRun (pollRun s a).1 b).1, (pollRun s a).2 ++ (pollRun (pollRun s a).1 b).2) := by
  induction a generalizing s with
  | nil => simp [pollRun]
  | cons x xs ih => simp [pollRun, ih, List.append_assoc]

theorem pollRun_noMarker (inputs : List PollInput) (hL : ∀ i ∈ inputs, i.loaded = false) :
    ∀ n : Nat, n ≤ MAX_RETRIES →
    (n + inputs.length ≤ MAX_RETRIES →
       (pollRun ⟨false, n, true⟩ inputs).1 = ⟨false, n + inputs.length, true⟩ ∧
       countStatus "timeout" (pollRun ⟨false, n, true⟩ inputs).2 = 0 ∧
       countStatus "connected" (pollRun ⟨false, n, true⟩ inputs).2 = 0) ∧
    (MAX_RETRIES < n + inputs.length →
       (pollRun ⟨false, n, true⟩ inputs).1 = ⟨false, MAX_RETRIES + 1, false⟩ ∧
       countStatus "timeout" (pollRun ⟨false, n, true⟩ inputs).2 = 1 ∧
       countStatus "connected" (pollRun ⟨false, n, true⟩ inputs).2 = 0) := by
  induction inputs with
  | nil =>
      intro n hn
      refine ⟨fun _ => ⟨by simp [pollRun], rfl, rfl⟩, fun h => ?_⟩
      exfalso
      simp at h
      omega
  | cons inp rest ih =>
      intro n hn
      have hL1 : inp.loaded = false := hL inp (by simp)
      have hLr : ∀ i ∈ rest, i.loaded = false := fun i hi => hL i (by simp [hi])
      by_cases hbig : MAX_RETRIES < n + 1
      · have hn180 : n = MAX_RETRIES := by omega
        subst hn180
        have hstep : pollStep ⟨false, MAX_RETRIES, true⟩ inp
            = (⟨false, MAX_RETRIES + 1, false⟩, [⟨"timeout", inp.now⟩]) := by
          simp [pollStep, hbig]
        have hrest : pollRun (⟨false, MAX_RETRIES + 1, false⟩ : PollState) rest
            = (⟨false, MAX_RETRIES + 1, false⟩, []) := pollRun_unarmed rest _ rfl
        constructor
        · intro h
          simp [List.length_cons] at h
        · intro _
          refine ⟨?_, ?_, ?_⟩ <;> simp [pollRun, hstep, hrest, countStatus]
      · have hstep1 : (pollStep ⟨false, n, true⟩ inp).1 = ⟨false, n + 1, true⟩ := by
          by_cases hq : (inp.qrVisible && decide ((n + 1) % 10 = 0)) = true
          · simp [pollStep, hbig, hL1, hq]
          · simp [pollStep, hbig, hL1, hq]
        have hstep2 : countStatus "timeout" (pollStep ⟨false, n, true⟩ inp).2 = 0 ∧
            countStatus "connected" (pollStep ⟨false, n, true⟩ inp).2 = 0 := by
          by_cases hq : (inp.qrVisible && decide ((n + 1) % 10 = 0)) = true
          · constructor <;> simp [pollStep, hbig, hL1, hq, countStatus]
          · constructor <;> simp [pollStep, hbig, hL1, hq, countStatus]
        obtain ⟨ihA, ihB⟩ := ih hLr (n + 1) (by omega)
        constructor
        · intro h
          have h1 : (n + 1) + rest.length ≤ MAX_RETRIES := by
            simp [List.length_cons] at h
            omega
          obtain ⟨e1, e2, e3⟩ := ihA h1
          refine ⟨?_, ?_, ?_⟩
          · simp only [pollRun, hstep1, e1, List.length_cons, PollState.mk.injEq]
            exact ⟨trivial, by omega, trivial⟩
          · simp only [pollRun, countStatus_append, hstep1, hstep2.1, e2]
          · simp only [pollRun, countStatus_append, hstep1, hstep2.2, e3]
        · intro h
          have h1 : MAX_RETRIES < (n + 1) + rest.length := by
            simp [List.length_cons] at h
            omega
          obtain ⟨e1, e2, e3⟩ := ihB h1
          refine ⟨?_, ?_, ?_⟩
          · simp only [pollRun, hstep1, e1]
          · simp only [pollRun, countStatus_append, hstep1, hstep2.1, e2]
          · simp only [pollRun, countStatus_append, hstep1, hstep2.2, e3]

/-! ### C4 -/

/-- C4: bounded readiness polling. With no readiness marker ever present,
each poll below the bound re-arms the next one and emits no timeout; on the
poll exceeding MAX_RETRIES exactly one timeout status is emitted, the
callback is not re-armed, and the timed-out state is terminal - every later
tick is a no-op. When a marker appears before the bound, the observer phase
starts, one connected status is emitted, polling stops, and no timeout is
ever emitted. -/
theorem polling_bounded :
    (∀ inputs : List PollInput, (∀ i ∈ inputs, i.loaded = false) →
       MAX_RETRIES < inputs.length →
       countStatus "timeout" (pollRun PollState.boot inputs).2 = 1 ∧
       (pollRun PollState.boot inputs).1 = ⟨false, MAX_RETRIES + 1, false⟩ ∧
       (∀ inp, pollStep (pollRun PollState.boot inputs).1 inp
          = ((pollRun PollState.boot inputs).1, []))) ∧
    (∀ inputs : List PollInput, (∀ i ∈ inputs, i.loaded = false) →
       inputs.length ≤ MAX_RETRIES →
       (pollRun PollState.boot inputs).1 = ⟨false, inputs.length, true⟩ ∧
       countStatus "timeout" (pollRun PollState.boot inputs).2 = 0) ∧
    (∀ (pre : List PollInput) (inp : PollInput) (post : List PollInput),
       (∀ i ∈ pre, i.loaded = false) → inp.loaded = true → pre.length < MAX_RETRIES →
       (pollRun PollState.boot (pre ++ inp :: post)).1 = ⟨true, pre.length + 1, false⟩ ∧
       countStatus "timeout" (pollRun PollState.boot (pre ++ inp :: post)).2 = 0 ∧
       countStatus "connected" (pollRun PollState.boot (pre ++ inp :: post)).2 = 1) := by
  refine ⟨?_, ?_, ?_⟩
  · intro inputs hL hlen
    have h := (pollRun_noMarker inputs hL 0 (by simp [MAX_RETRIES])).2 (by simpa using hlen)
    obtain ⟨e1, e2, _⟩ := h
    have hboot : PollState.boot = (⟨false, 0, true⟩ : PollState) := rfl
    rw [hboot]
    refine ⟨e2, e1, fun inp => ?_⟩
    rw [e1]
    exact pollStep_unarmed _ inp rfl
  · intro inputs hL hlen
    have h := (pollRun_noMarker inputs hL 0 (by simp [MAX_RETRIES])).1 (by simpa using hlen)
    obtain ⟨e1, e2, _⟩ := h
    have hboot : PollState.boot = (⟨false, 0, true⟩ : PollState) := rfl
    rw [hboot]
    refine ⟨by simpa using e1, e2⟩
  · intro pre inp post hL hi hlen
    have hboot : PollState.boot = (⟨false, 0, true⟩ : PollState) := rfl
    have hpre := (pollRun_noMarker pre hL 0 (by simp [MAX_RETRIES])).1 (by omega)
    obtain ⟨e1, e2, e3⟩ := hpre
    have e1' : (pollRun ⟨false, 0, true⟩ pre).1 = ⟨false, pre.length, true⟩ := by simpa using e1
    have hnb : ¬ MAX_RETRIES < pre.length + 1 := by omega
    have hstep : pollStep (⟨false, pre.length, true⟩ : PollState) inp
        = (⟨true, pre.length + 1, false⟩, [⟨"connected", inp.now⟩]) := by
      simp [pollStep, hnb, hi]
    have hpost : pollRun (⟨true, pre.length + 1, false⟩ : PollState) post
        = (⟨true, pre.length + 1, false⟩, []) := pollRun_unarmed post _ rfl
    rw [hboot, pollRun_append]
    rw [e1']
    refine ⟨?_, ?_, ?_⟩
    · simp only [pollRun, hstep, hpost]
    · rw [countStatus_append, e2]
      simp only [pollRun, hstep, hpost]
      simp [countStatus]
    · rw [countStatus_append, e3]
      simp only [pollRun, hstep, hpost]
      simp [countStatus]

/-- Witness for C4 at a 181-tick markerless run. -/
theorem polling_bounded_witness :
    countStatus "timeout" (pollRun PollState.boot (List.replicate 181 idleInp)).2 = 1 :=
  (polling_bounded.1 (List.replicate 181 idleInp)
    (fun i hi => by rw [List.eq_of_mem_replicate hi]; rfl)
    (by rw [List.length_replicate]; decide)).1

/-! ### C7 -/

/-- C7 counterexample: a run of ten markerless polls with a visible QR code
emits a status event waiting-for-qr, a status outside the claimed
vocabulary of connected, waiting-for-marker and timeout, and it is emitted
with no state transition - the harvester is still polling, not yet
observing, before and after. -/
theorem status_vocabulary_cex :
    (pollRun PollState.boot (List.replicate 10 qrInp)).2 = [⟨"waiting_for_qr", "t"⟩] ∧
    (("waiting_for_qr" == "connected") = false
      ∧ ("waiting_for_qr" == "waiting_for_marker") = false
      ∧ ("waiting_for_qr" == "timeout") = false) ∧
    (pollRun PollState.boot (List.replicate 10 qrInp)).1.observerStarted = false ∧
    PollState.boot.observerStarted = false ∧
    (pollRun PollState.boot (List.replicate 10 qrInp)).1.armed = true := by
  refine ⟨by decide, by decide, by decide, rfl, by decide⟩

/-- C7 amended: every status event the monitor emits carries one of
connected, waiting-for-qr or timeout together with a timestamp; connected
is emitted exactly at the transition into the observer phase and timeout at
the transition into the terminal timed-out state, while waiting-for-qr is
emitted during polling (every tenth retry while a QR marker is visible)
with no state transition. -/
theorem status_vocabulary_amended :
    ∀ (s : PollState) (inp : PollInput), ∀ ev ∈ (pollStep s inp).2,
      (ev.status = "connected" ∨ ev.status = "waiting_for_qr" ∨ ev.status = "timeout") ∧
      ev.timestamp = inp.now ∧
      (ev.status = "connected" →
        s.observerStarted = false ∧ (pollStep s inp).1.observerStarted = true) ∧
      (ev.status = "timeout" →
        (pollStep s inp).1.armed = false ∧ MAX_RETRIES < (pollStep s inp).1.retryCount) ∧
      (ev.status = "waiting_for_qr" →
        (pollStep s inp).1.observerStarted = s.observerStarted ∧
        (pollStep s inp).1.armed = true ∧ s.observerStarted = false) := by
  intro s inp ev hev
  by_cases ha : s.armed = true
  · by_cases ho : s.observerStarted = true
    · simp [pollStep, ha, ho] at hev
    · have ho' : s.observerStarted = false := by
        cases h : s.observerStarted
        · rfl
        · exact absurd h ho
      by_cases hbig : MAX_RETRIES < s.retryCount + 1
      · simp [pollStep, ha, ho', hbig] at hev
        subst hev
        refine ⟨Or.inr (Or.inr rfl), rfl, ?_, ?_, ?_⟩
        · intro h
          simp at h
        · intro _
          constructor <;> simp [pollStep, ha, ho', hbig]
        · intro h
          simp at h
      · by_cases hl : inp.loaded = true
        · simp [pollStep, ha, ho', hbig, hl] at hev
          subst hev
          refine ⟨Or.inl rfl, rfl, ?_, ?_, ?_⟩
          · intro _
            exact ⟨ho', by simp [pollStep, ha, ho', hbig, hl]⟩
          · intro h
            simp at h
          · intro h
            simp at h
        · have hl' : inp.loaded = false := by
            cases h : inp.loaded
            · rfl
            · exact absurd h hl
          by_cases hq : (inp.qrVisible && decide ((s.retryCount + 1) % 10 = 0)) = true
          · simp [pollStep, ha, ho', hbig, hl', hq] at hev
            subst hev
            refine ⟨Or.inr (Or.inl rfl), rfl, ?_, ?_, ?_⟩
            · intro h
              simp at h
            · intro h
              simp at h
            · intro _
              refine ⟨?_, ?_, ho'⟩ <;> simp [pollStep, ha, ho', hbig, hl', hq]
          · simp [pollStep, ha, ho', hbig, hl', hq] at hev
  · have ha' : s.armed = false := by
      cases h : s.armed
      · rfl
      · exact absurd h ha
    rw [pollStep_unarmed s inp ha'] at hev
    simp at hev

/-! ### Scan step lemmas -/

theorem stepOpenChat_total (ts chat : String) (i : Nat) (el : MsgEl) (s : HState) :
    stepOpenChat ts chat i el s = (s, none) ∨
    ∃ r, stepOpenChat ts chat i el s =
      ({ s with seenMessages := r.message_id :: s.seenMessages, q := queueMessage r s.q },
       some r) := by
  unfold stepOpenChat
  cases hid : computeMsgId chat i el with
  | none => exact Or.inl rfl
  | some mid =>
      dsimp only
      by_cases hm : mid ∈ s.seenMessages
      · rw [if_pos hm]
        exact Or.inl rfl
      · rw [if_neg hm]
        cases htx : strTruthy (extractText el) with
        | none => exact Or.inl rfl
        | some text =>
            dsimp only
            exact Or.inr ⟨⟨(strTruthy (prePlainSender el.prePlainAttr)).getD chat, chat, text,
                            ts, mid, none⟩, rfl⟩

theorem stepOpenChat_emit {ts chat : String} {i : Nat} {el : MsgEl} {s s' : HState}
    {r : HarvestRecord} (h : stepOpenChat ts chat i el s = (s', some r)) :
    computeMsgId chat i el = some r.message_id ∧
    r.message_id ∉ s.seenMessages ∧
    strTruthy (extractText el) = some r.text ∧
    s' = { s with seenMessages := r.message_id :: s.seenMessages, q := queueMessage r s.q } := by
  unfold stepOpenChat at h
  cases hid : computeMsgId chat i el with
  | none =>
      rw [hid] at h
      simp at h
  | some mid =>
      rw [hid] at h
      dsimp only at h
      by_cases hm : mid ∈ s.seenMessages
      · rw [if_pos hm] at h
        simp at h
      · rw [if_neg hm] at h
        cases htx : strTruthy (extractText el) with
        | none =>
            rw [htx] at h
            simp at h
        | some text =>
            rw [htx] at h
            dsimp only at h
            rw [Prod.mk.injEq] at h
            obtain ⟨hs, hr⟩ := h
            injection hr with hr
            subst hr
            subst hs
            exact ⟨rfl, hm, rfl, rfl⟩

theorem stepOpenChat_skip_mono {ts chat : String} {i : Nat} {el : MsgEl} {s : HState}
    (h : stepOpenChat ts chat i el s = (s, none)) (ts2 : String) (s2 : HState)
    (hsub : ∀ x ∈ s.seenMessages, x ∈ s2.seenMessages) :
    stepOpenChat ts2 chat i el s2 = (s2, none) := by
  unfold stepOpenChat at h ⊢
  cases hid : computeMsgId chat i el with
  | none => rfl
  | some mid =>
      rw [hid] at h
      dsimp only at h ⊢
      by_cases hm2 : mid ∈ s2.seenMessages
      · rw [if_pos hm2]
      · rw [if_neg hm2]
        by_cases hm : mid ∈ s.seenMessages
        · exact absurd (hsub mid hm) hm2
        · rw [if_neg hm] at h
          cases htx : strTruthy (extractText el) with
          | none => rfl
          | some text =>
              rw [htx] at h
              simp at h

theorem stepSidebar_total (ts : String) (item : SbItem) (s : HState) :
    stepSidebar ts item s = (s, none) ∨
    ∃ r, stepSidebar ts item s =
      ({ s with seenSidebar := r.message_id :: s.seenSidebar, q := queueMessage r s.q },
       some r) := by
  unfold stepSidebar
  cases hc : findContact item.titles with
  | none => exact Or.inl rfl
  | some contact =>
      dsimp only
      cases hp : findPreview contact item.spans with
      | none => exact Or.inl rfl
      | some pv =>
          dsimp only
          by_cases hm : sidebarKey contact pv ∈ s.seenSidebar
          · rw [if_pos hm]
            exact Or.inl rfl
          · rw [if_neg hm]
            exact Or.inr ⟨⟨contact, contact, pv, ts, sidebarKey contact pv,
                            some (findUnread item.spans)⟩, rfl⟩

theorem stepSidebar_emit {ts : String} {item : SbItem} {s s' : HState}
    {r : HarvestRecord} (h : stepSidebar ts item s = (s', some r)) :
    (∃ contact pv, findContact item.titles = some contact ∧
       findPreview contact item.spans = some pv ∧
       r = ⟨contact, contact, pv, ts, sidebarKey contact pv, some (findUnread item.spans)⟩) ∧
    r.message_id ∉ s.seenSidebar ∧
    s' = { s with seenSidebar := r.message_id :: s.seenSidebar, q := queueMessage r s.q } := by
  unfold stepSidebar at h
  cases hc : findContact item.titles with
  | none =>
      rw [hc] at h
      simp at h
  | some contact =>
      rw [hc] at h
      dsimp only at h
      cases hp : findPreview contact item.spans with
      | none =>
          rw [hp] at h
          simp at h
      | some pv =>
          rw [hp] at h
          dsimp only at h
          by_cases hm : sidebarKey contact pv ∈ s.seenSidebar
          · rw [if_pos hm] at h
            simp at h
          · rw [if_neg hm] at h
            rw [Prod.mk.injEq] at h
            obtain ⟨hs, hr⟩ := h
            injection hr with hr
            subst hr
            subst hs
            exact ⟨⟨contact, pv, rfl, hp, rfl⟩, hm, rfl⟩

theorem stepSidebar_skip_mono {ts : String} {item : SbItem} {s : HState}
    (h : stepSidebar ts item s = (s, none)) (ts2 : String) (s2 : HState)
    (hsub : ∀ x ∈ s.seenSidebar, x ∈ s2.seenSidebar) :
    stepSidebar ts2 item s2 = (s2, none) := by
  unfold stepSidebar at h ⊢
  cases hc : findContact item.titles with
  | none => rfl
  | some contact =>
      rw [hc] at h
      dsimp only at h ⊢
      cases hp : findPreview contact item.spans with
      | none => rfl
      | some pv =>
          rw [hp] at h
          dsimp only at h ⊢
          by_cases hm2 : sidebarKey contact pv ∈ s2.seenSidebar
          · rw [if_pos hm2]
          · rw [if_neg hm2]
            by_cases hm : sidebarKey contact pv ∈ s.seenSidebar
            · exact absurd (hsub _ hm) hm2
            · rw [if_neg hm] at h
              simp at h

/-! ### Scan loop invariants -/

theorem scanOpenChatGo_spec (ts chat : String) :
    ∀ (msgs : List MsgEl) (i : Nat) (s : HState),
      ((scanOpenChatGo ts chat i msgs s).1.q.messageQueue
         = s.q.messageQueue ++ (scanOpenChatGo ts chat i msgs s).2) ∧
      ((scanOpenChatGo ts chat i msgs s).1.seenSidebar = s.seenSidebar) ∧
      (∀ x ∈ s.seenMessages, x ∈ (scanOpenChatGo ts chat i msgs s).1.seenMessages) ∧
      (∀ r ∈ (scanOpenChatGo ts chat i msgs s).2,
         r.message_id ∉ s.seenMessages ∧
         r.message_id ∈ (scanOpenChatGo ts chat i msgs s).1.seenMessages) ∧
      (((scanOpenChatGo ts chat i msgs s).2.map HarvestRecord.message_id).Nodup) := by
  intro msgs
  induction msgs with
  | nil =>
      intro i s
      refine ⟨?_, rfl, fun x hx => hx, fun r hr => absurd hr (List.not_mem_nil r),
              List.nodup_nil⟩
      show s.q.messageQueue = s.q.messageQueue ++ ([] : List HarvestRecord)
      simp
  | cons el rest ih =>
      intro i s
      rcases stepOpenChat_total ts chat i el s with hstep | ⟨r, hstep⟩
      · obtain ⟨ihq, ihsb, ihmono, ihrecs, ihnodup⟩ := ih (i + 1) s
        refine ⟨?_, ?_, ?_, ?_, ?_⟩ <;>
          simp only [scanOpenChatGo, hstep, Option.toList_none, List.nil_append]
        · exact ihq
        · exact ihsb
        · exact ihmono
        · exact ihrecs
        · exact ihnodup
      · have hemit := stepOpenChat_emit hstep
        obtain ⟨ihq, ihsb, ihmono, ihrecs, ihnodup⟩ :=
          ih (i + 1) { s with seenMessages := r.message_id :: s.seenMessages,
                              q := queueMessage r s.q }
        refine ⟨?_, ?_, ?_, ?_, ?_⟩ <;>
          simp only [scanOpenChatGo, hstep, Option.toList_some, List.singleton_append]
        · rw [ihq, queueMessage_messageQueue]
          simp
        · exact ihsb
        · intro x hx
          exact ihmono x (List.mem_cons_of_mem _ hx)
        · intro r' hr'
          rcases List.mem_cons.mp hr' with hr' | hr'
          · subst hr'
            exact ⟨hemit.2.1, ihmono _ (List.mem_cons_self _ _)⟩
          · obtain ⟨hfresh, hin⟩ := ihrecs r' hr'
            exact ⟨fun hx => hfresh (List.mem_cons_of_mem _ hx), hin⟩
        · rw [List.map_cons, List.nodup_cons]
          refine ⟨?_, ihnodup⟩
          intro hmem
          obtain ⟨r', hr', hid⟩ := List.mem_map.mp hmem
          exact (ihrecs r' hr').1 (hid ▸ List.mem_cons_self _ _)

theorem scanOpenChatGo_rescan (ts chat : String) :
    ∀ (msgs : List MsgEl) (i : Nat) (s : HState) (ts2 : String) (s2 : HState),
      (∀ x ∈ (scanOpenChatGo ts chat i msgs s).1.seenMessages, x ∈ s2.seenMessages) →
      scanOpenChatGo ts2 chat i msgs s2 = (s2, []) := by
  intro msgs
  induction msgs with
  | nil =>
      intro i s ts2 s2 _
      rfl
  | cons el rest ih =>
      intro i s ts2 s2 hsub
      rcases stepOpenChat_total ts chat i el s with hstep | ⟨r, hstep⟩
      · have hsub' : ∀ x ∈ (scanOpenChatGo ts chat (i + 1) rest s).1.seenMessages,
            x ∈ s2.seenMessages := by
          intro x hx
          refine hsub x ?_
          simp only [scanOpenChatGo, hstep]
          exact hx
        have hskip2 : stepOpenChat ts2 chat i el s2 = (s2, none) :=
          stepOpenChat_skip_mono hstep ts2 s2 (fun x hx =>
            hsub' x ((scanOpenChatGo_spec ts chat rest (i + 1) s).2.2.1 x hx))
        have hrest := ih (i + 1) s ts2 s2 hsub'
        simp only [scanOpenChatGo, hskip2, hrest, Option.toList_none, List.nil_append]
      · have hemit := stepOpenChat_emit hstep
        have hsub' : ∀ x ∈ (scanOpenChatGo ts chat (i + 1) rest
              { s with seenMessages := r.message_id :: s.seenMessages,
                       q := queueMessage r s.q }).1.seenMessages,
            x ∈ s2.seenMessages := by
          intro x hx
          refine hsub x ?_
          simp only [scanOpenChatGo, hstep]
          exact hx
        have hrid2 : r.message_id ∈ s2.seenMessages :=
          hsub' _ ((scanOpenChatGo_spec ts chat rest (i + 1) _).2.2.1 _
            (List.mem_cons_self _ _))
        have hskip2 : stepOpenChat ts2 chat i el s2 = (s2, none) := by
          unfold stepOpenChat
          rw [hemit.1]
          dsimp only
          rw [if_pos hrid2]
        have hrest := ih (i + 1) _ ts2 s2 hsub'
        simp only [scanOpenChatGo, hskip2, hrest, Option.toList_none, List.nil_append]

theorem scanSidebarGo_spec (ts : String) :
    ∀ (items : List SbItem) (s : HState),
      ((scanSidebarGo ts items s).1.q.messageQueue
         = s.q.messageQueue ++ (scanSidebarGo ts items s).2) ∧
      ((scanSidebarGo ts items s).1.seenMessages = s.seenMessages) ∧
      (∀ x ∈ s.seenSidebar, x ∈ (scanSidebarGo ts items s).1.seenSidebar) ∧
      (∀ r ∈ (scanSidebarGo ts items s).2,
         r.message_id ∉ s.seenSidebar ∧
         r.message_id ∈ (scanSidebarGo ts items s).1.seenSidebar) ∧
      (((scanSidebarGo ts items s).2.map HarvestRecord.message_id).Nodup) := by
  intro items
  induction items with
  | nil =>
      intro s
      refine ⟨?_, rfl, fun x hx => hx, fun r hr => absurd hr (List.not_mem_nil r),
              List.nodup_nil⟩
      show s.q.messageQueue = s.q.messageQueue ++ ([] : List HarvestRecord)
      simp
  | cons item rest ih =>
      intro s
      rcases stepSidebar_total ts item s with hstep | ⟨r, hstep⟩
      · obtain ⟨ihq, ihsm, ihmono, ihrecs, ihnodup⟩ := ih s
        refine ⟨?_, ?_, ?_, ?_, ?_⟩ <;>
          simp only [scanSidebarGo, hstep, Option.toList_none, List.nil_append]
        · exact ihq
        · exact ihsm
        · exact ihmono
        · exact ihrecs
        · exact ihnodup
      · have hemit := stepSidebar_emit hstep
        obtain ⟨ihq, ihsm, ihmono, ihrecs, ihnodup⟩ :=
          ih { s with seenSidebar := r.message_id :: s.seenSidebar, q := queueMessage r s.q }
        refine ⟨?_, ?_, ?_, ?_, ?_⟩ <;>
          simp only [scanSidebarGo, hstep, Option.toList_some, List.singleton_append]
        · rw [ihq, queueMessage_messageQueue]
          simp
        · exact ihsm
        · intro x hx
          exact ihmono x (List.mem_cons_of_mem _ hx)
        · intro r' hr'
          rcases List.mem_cons.mp hr' with hr' | hr'
          · subst hr'
            exact ⟨hemit.2.1, ihmono _ (List.mem_cons_self _ _)⟩
          · obtain ⟨hfresh, hin⟩ := ihrecs r' hr'
            exact ⟨fun hx => hfresh (List.mem_cons_of_mem _ hx), hin⟩
        · rw [List.map_cons, List.nodup_cons]
          refine ⟨?_, ihnodup⟩
          intro hmem
          obtain ⟨r', hr', hid⟩ := List.mem_map.mp hmem
          exact (ihrecs r' hr').1 (hid ▸ List.mem_cons_self _ _)

theorem scanSidebarGo_rescan (ts : String) :
    ∀ (items : List SbItem) (s : HState) (ts2 : String) (s2 : HState),
      (∀ x ∈ (scanSidebarGo ts items s).1.seenSidebar, x ∈ s2.seenSidebar) →
      scanSidebarGo ts2 items s2 = (s2, []) := by
  intro items
  induction items with
  | nil =>
      intro s ts2 s2 _
      rfl
  | cons item rest ih =>
      intro s ts2 s2 hsub
      rcases stepSidebar_total ts item s with hstep | ⟨r, hstep⟩
      · have hsub' : ∀ x ∈ (scanSidebarGo ts rest s).1.seenSidebar, x ∈ s2.seenSidebar := by
          intro x hx
          refine hsub x ?_
          simp only [scanSidebarGo, hstep]
          exact hx
        have hskip2 : stepSidebar ts2 item s2 = (s2, none) :=
          stepSidebar_skip_mono hstep ts2 s2 (fun x hx =>
            hsub' x ((scanSidebarGo_spec ts rest s).2.2.1 x hx))
        have hrest := ih s ts2 s2 hsub'
        simp only [scanSidebarGo, hskip2, hrest, Option.toList_none, List.nil_append]
      · have hemit := stepSidebar_emit hstep
        have hsub' : ∀ x ∈ (scanSidebarGo ts rest
              { s with seenSidebar := r.message_id :: s.seenSidebar,
                       q := queueMessage r s.q }).1.seenSidebar,
            x ∈ s2.seenSidebar := by
          intro x hx
          refine hsub x ?_
          simp only [scanSidebarGo, hstep]
          exact hx
        have hrid2 : r.message_id ∈ s2.seenSidebar :=
          hsub' _ ((scanSidebarGo_spec ts rest _).2.2.1 _ (List.mem_cons_self _ _))
        have hskip2 : stepSidebar ts2 item s2 = (s2, none) := by
          obtain ⟨⟨contact, pv, hc, hp, hrdef⟩, _, _⟩ := hemit
          unfold stepSidebar
          rw [hc]
          dsimp only
          rw [hp]
          dsimp only
          have : sidebarKey contact pv ∈ s2.seenSidebar := by
            have : r.message_id = sidebarKey contact pv := by rw [hrdef]
            rwa [this] at hrid2
          rw [if_pos this]
        have hrest := ih _ ts2 s2 hsub'
        simp only [scanSidebarGo, hskip2, hrest, Option.toList_none, List.nil_append]

/-! ### C1 -/

/-- C1: per-target deduplication. For both scan targets: the scan only ever
appends its emitted records to the queue; every emitted record carries an
identity that was not yet in that target's seen-set, so an already-seen
candidate produces no record and no queue append; the identities emitted by
one scan are pairwise distinct; and re-running the scan on identical DOM
content leaves the state untouched and emits nothing, so identical content
fed twice yields exactly one record per identity. -/
theorem scan_dedup_unique :
    (∀ (ts : String) (doc : ChatDoc) (msgs : List MsgEl) (s : HState),
       ((scanOpenChat ts doc msgs s).1.q.messageQueue
          = s.q.messageQueue ++ (scanOpenChat ts doc msgs s).2) ∧
       (∀ r ∈ (scanOpenChat ts doc msgs s).2, r.message_id ∉ s.seenMessages) ∧
       (((scanOpenChat ts doc msgs s).2.map HarvestRecord.message_id).Nodup) ∧
       (∀ ts2, scanOpenChat ts2 doc msgs (scanOpenChat ts doc msgs s).1
          = ((scanOpenChat ts doc msgs s).1, []))) ∧
    (∀ (ts : String) (d : SidebarDoc) (s : HState),
       ((scanSidebar ts d s).1.q.messageQueue
          = s.q.messageQueue ++ (scanSidebar ts d s).2) ∧
       (∀ r ∈ (scanSidebar ts d s).2, r.message_id ∉ s.seenSidebar) ∧
       (((scanSidebar ts d s).2.map HarvestRecord.message_id).Nodup) ∧
       (∀ ts2, scanSidebar ts2 d (scanSidebar ts d s).1 = ((scanSidebar ts d s).1, []))) := by
  constructor
  · intro ts doc msgs s
    unfold scanOpenChat
    cases hname : getCurrentChatName doc with
    | none =>
        dsimp only
        exact ⟨by simp, fun r hr => absurd hr (List.not_mem_nil r), List.nodup_nil,
               fun ts2 => rfl⟩
    | some chat =>
        dsimp only
        obtain ⟨hq, _, _, hrecs, hnodup⟩ := scanOpenChatGo_spec ts chat msgs 0 s
        exact ⟨hq, fun r hr => (hrecs r hr).1, hnodup,
               fun ts2 => scanOpenChatGo_rescan ts chat msgs 0 s ts2 _ (fun x hx => hx)⟩
  · intro ts d s
    unfold scanSidebar
    obtain ⟨hq, _, _, hrecs, hnodup⟩ := scanSidebarGo_spec ts (resolveSidebarItems d) s
    exact ⟨hq, fun r hr => (hrecs r hr).1, hnodup,
           fun ts2 => scanSidebarGo_rescan ts (resolveSidebarItems d) s ts2 _ (fun x hx => hx)⟩

/-- Witness for C1: the one record of a concrete sidebar scan was fresh. -/
theorem scan_dedup_unique_witness :
    (⟨"Alice", "Alice", pvA, "t", sidebarKey "Alice" pvA, some 0⟩
      : HarvestRecord).message_id ∉ HState.start.seenSidebar :=
  (scan_dedup_unique.2 "t" sbDocAB HState.start).2.1 _ (by decide)

/-! ### C9 -/

/-- C9 counterexample: a document in which no header span carries a title
attribute of length 1-119 - the only candidate has an empty title - still
lets the open-chat scan emit a record, because getCurrentChatName falls
back to the trimmed text content of the header span when its title
attribute is empty. -/
theorem open_chat_gate_cex :
    cexDoc.mainHeaderTitles = [] ∧
    cexDoc.fallbackSpan = some ⟨"", " Bob "⟩ ∧
    (decide (1 ≤ ("" : String).length ∧ ("" : String).length ≤ 119)) = false ∧
    getCurrentChatName cexDoc = some "Bob" ∧
    (scanOpenChat "t" cexDoc [msgNative] HState.start).2
      = [⟨"Bob", "Bob", "hi", "t", "m1", none⟩] ∧
    (scanOpenChat "t" cexDoc [msgNative] HState.start).1.seenMessages = ["m1"] := by
  refine ⟨rfl, rfl, by decide, by decide, by decide, by decide⟩

/-- C9 amended: every open-chat scan is gated on getCurrentChatName
resolving a chat name - a title of length 1-119 on an open-chat header
span, or the fallback header span's title, or, when that title is empty,
its trimmed text content within the same length bounds. When none of these
resolves, the scan returns without emitting any record or touching the
seen-set, even for message elements that carry a native data-id. -/
theorem open_chat_gate_amended :
    ∀ (ts : String) (doc : ChatDoc) (msgs : List MsgEl) (s : HState),
      getCurrentChatName doc = none → scanOpenChat ts doc msgs s = (s, []) := by
  intro ts doc msgs s h
  unfold scanOpenChat
  rw [h]

/-- Witness for C9 amended: a document with no header spans at all gates a
scan over a message carrying a native data-id. -/
theorem open_chat_gate_amended_witness :
    scanOpenChat "t" ⟨[], none⟩ [msgNative] HState.start = (HState.start, []) :=
  open_chat_gate_amended "t" ⟨[], none⟩ [msgNative] HState.start rfl

/-! ### C10 -/

/-- C10: derived record identities are truncated-prefix keys. A sidebar
identity is the contact plus the first 50 characters of the preview with no
position component; an open-chat message without a native data-id derives
its identity from the chat name, its scan index and the first 20 characters
of its text. Identities agreeing on those components coincide, and in a
concrete sidebar scan with two distinct previews sharing a 50-character
head only the first is emitted. -/
theorem derived_id_keys :
    (∀ (contact p1 p2 : String), p1.take 50 = p2.take 50 →
       sidebarKey contact p1 = sidebarKey contact p2) ∧
    (∀ (chat : String) (i : Nat) (r1 r2 : String), r1.take 20 = r2.take 20 →
       openChatDerivedId chat i r1 = openChatDerivedId chat i r2) ∧
    (∀ (chat : String) (i : Nat) (el : MsgEl) (rt : String),
       strTruthy el.attrDataId = none → strTruthy el.closestDataId = none →
       strTruthy (extractText el) = some rt →
       computeMsgId chat i el = some (openChatDerivedId chat i rt)) ∧
    (∀ (ts : String) (item : SbItem) (s s' : HState) (r : HarvestRecord),
       stepSidebar ts item s = (s', some r) →
       ∃ contact pv, findContact item.titles = some contact ∧
         findPreview contact item.spans = some pv ∧
         r.message_id = sidebarKey contact pv) ∧
    ((pvA == pvB) = false ∧ pvA.take 50 = pvB.take 50 ∧
      sidebarKey "Alice" pvA = sidebarKey "Alice" pvB ∧
      (scanSidebar "t" sbDocAB HState.start).2.length = 1) := by
  refine ⟨?_, ?_, ?_, ?_, by decide, by decide, by decide, by decide⟩
  · intro contact p1 p2 h
    simp [sidebarKey, h]
  · intro chat i r1 r2 h
    simp [openChatDerivedId, h]
  · intro chat i el rt h1 h2 h3
    simp only [computeMsgId, h1, h2, h3]
  · intro ts item s s' r h
    obtain ⟨⟨contact, pv, hc, hp, hr⟩, _, _⟩ := stepSidebar_emit h
    exact ⟨contact, pv, hc, hp, by rw [hr]⟩

/-- Witness for C10 at concrete prefix-sharing strings and a concrete
id-less message element. -/
theorem derived_id_keys_witness :
    sidebarKey "A" pvA = sidebarKey "A" pvB ∧
    openChatDerivedId "C" 1 pvA = openChatDerivedId "C" 1 pvB ∧
    computeMsgId "Chat" 0 msgNoId = some (openChatDerivedId "Chat" 0 "hello world") ∧
    (∃ contact pv, findContact itemA.titles = some contact ∧
       findPreview contact itemA.spans = some pv ∧
       (⟨"Alice", "Alice", pvA, "t", sidebarKey "Alice" pvA, some 0⟩
         : HarvestRecord).message_id = sidebarKey contact pv) :=
  ⟨derived_id_keys.1 "A" pvA pvB (by decide),
   derived_id_keys.2.1 "C" 1 pvA pvB (by decide),
   derived_id_keys.2.2.1 "Chat" 0 msgNoId "hello world" rfl rfl (by decide),
   derived_id_keys.2.2.2.1 "t" itemA HState.start
     ⟨[], [sidebarKey "Alice" pvA],
       queueMessage ⟨"Alice", "Alice", pvA, "t", sidebarKey "Alice" pvA, some 0⟩ QState.start⟩
     ⟨"Alice", "Alice", pvA, "t", sidebarKey "Alice" pvA, some 0⟩ (by decide)⟩

/-- Witness for C7 amended at the tenth QR-visible poll. -/
theorem status_vocabulary_amended_witness :
    (("waiting_for_qr" : String) = "connected" ∨ ("waiting_for_qr" : String) = "waiting_for_qr"
      ∨ ("waiting_for_qr" : String) = "timeout") ∧
    ("t" : String) = qrInp.now ∧
    (("waiting_for_qr" : String) = "connected" →
      (⟨false, 9, true⟩ : PollState).observerStarted = false ∧
      (pollStep ⟨false, 9, true⟩ qrInp).1.observerStarted = true) ∧
    (("waiting_for_qr" : String) = "timeout" →
      (pollStep ⟨false, 9, true⟩ qrInp).1.armed = false ∧
      MAX_RETRIES < (pollStep ⟨false, 9, true⟩ qrInp).1.retryCount) ∧
    (("waiting_for_qr" : String) = "waiting_for_qr" →
      (pollStep ⟨false, 9, true⟩ qrInp).1.observerStarted
        = (⟨false, 9, true⟩ : PollState).observerStarted ∧
      (pollStep ⟨false, 9, true⟩ qrInp).1.armed = true ∧
      (⟨false, 9, true⟩ : PollState).observerStarted = false) :=
  status_vocabulary_amended ⟨false, 9, true⟩ qrInp ⟨"waiting_for_qr", "t"⟩ (by decide)

end Lexicon
